import Mathlib

/-!
Verification development for the ip-probe backend's client-IP resolution and
classification core (packages/backend/src/services/ipDetection.ts and the
IPClassificationService in packages/backend/src/services/ipClassification.ts),
together with the parts of its dependency, the node-ip library (version 2.0.1,
as pinned by packages/backend/package.json), that those services call.

Strings are modelled as lists of characters.  JavaScript numbers are modelled
as exact integers or rationals (every arithmetic operation performed by the
modelled code on the modelled inputs is exact in IEEE doubles), with the
ToInt32 / ToUint32 coercions of the bitwise operators made explicit, and NaN
modelled by Option.
-/

/-- Strings manipulated by the modelled JavaScript code, as lists of characters. -/
abbrev Str := List Char

/-- Conversion from Lean string literals to the character-list representation. -/
def lit (s : String) : Str := s.data

/-- Decidable equality for Except, needed to evaluate the modelled fallible
operations on concrete inputs. -/
instance {ε α : Type} [DecidableEq ε] [DecidableEq α] : DecidableEq (Except ε α) := fun x y =>
  match x, y with
  | .ok a, .ok b =>
    if h : a = b then .isTrue (h ▸ rfl) else .isFalse (fun hc => h (Except.ok.inj hc))
  | .error e, .error f =>
    if h : e = f then .isTrue (h ▸ rfl) else .isFalse (fun hc => h (Except.error.inj hc))
  | .ok _, .error _ => .isFalse (fun hc => Except.noConfusion hc)
  | .error _, .ok _ => .isFalse (fun hc => Except.noConfusion hc)

/-- JavaScript ToUint32: the argument taken modulo 2^32, as a natural number. -/
def jsToUint32 (x : Int) : Nat := (x % (4294967296 : Int)).toNat

/-- JavaScript ToInt32: the argument modulo 2^32, shifted into [-2^31, 2^31). -/
def jsToInt32 (x : Int) : Int :=
  let r := x % (4294967296 : Int)
  if r < 2147483648 then r else r - 4294967296

/-- Decimal digit character. -/
def digitChar (n : Nat) : Char := Char.ofNat (48 + n)

/-- Lowercase hexadecimal digit character, as produced by Number.toString(16). -/
def hexChar (n : Nat) : Char := if n < 10 then digitChar n else Char.ofNat (87 + n)

/-- Fuelled decimal rendering of a natural number, most significant digit first.
The fuel bounds the digit count; renderDec supplies fuel 10, enough for every
number below 10^10 (all numbers rendered by the modelled code are below 2^32). -/
def renderDecAux : Nat → Nat → Str
  | 0, _ => []
  | f + 1, n => if n < 10 then [digitChar n] else renderDecAux f (n / 10) ++ [digitChar (n % 10)]

/-- Decimal rendering of a natural number; models JavaScript template-literal
and String(n) conversion of a nonnegative integer. -/
def renderDec (n : Nat) : Str := renderDecAux 10 n

/-- Fuelled lowercase hexadecimal rendering, as in (n).toString(16). -/
def renderHexAux : Nat → Nat → Str
  | 0, _ => []
  | f + 1, n => if n < 16 then [hexChar n] else renderHexAux f (n / 16) ++ [hexChar (n % 16)]

/-- Lowercase hexadecimal rendering of a natural number below 2^32. -/
def renderHex (n : Nat) : Str := renderHexAux 8 n

/-- JavaScript String.prototype.split with a single-character separator:
empty pieces are kept, and splitting the empty string yields one empty piece. -/
def splitOnChar (c : Char) : Str → List Str
  | [] => [[]]
  | x :: xs =>
    match splitOnChar c xs with
    | [] => [[x]]
    | g :: gs => if x = c then [] :: g :: gs else (x :: g) :: gs

/-- Leading run of decimal digits of a string, together with the remainder. -/
def takeDigitRun : Str → (Str × Str)
  | [] => ([], [])
  | c :: cs =>
    if c.isDigit then
      let r := takeDigitRun cs
      (c :: r.1, r.2)
    else ([], c :: cs)

/-- Value of a decimal digit string, most significant first. -/
def decValue (s : Str) : Nat := s.foldl (fun acc c => acc * 10 + (c.toNat - 48)) 0

/-- Value of a hexadecimal digit string (case-insensitive), most significant first. -/
def hexDigitVal (c : Char) : Nat :=
  if c.isDigit then c.toNat - 48
  else if 'a' ≤ c ∧ c ≤ 'f' then c.toNat - 87
  else if 'A' ≤ c ∧ c ≤ 'F' then c.toNat - 55
  else 0

/-- Whether a character is a hexadecimal digit. -/
def isHexCh (c : Char) : Bool := c.isDigit ∨ ('a' ≤ c ∧ c ≤ 'f') ∨ ('A' ≤ c ∧ c ≤ 'F')

/-- Value of a hexadecimal digit string. -/
def hexValue (s : Str) : Nat := s.foldl (fun acc c => acc * 16 + hexDigitVal c) 0

/-- JavaScript parseInt(s, 10) restricted to the strings this development feeds
it: the maximal leading run of decimal digits is parsed; none models NaN (no
leading digit).  The whitespace/sign/hex-literal cases of full parseInt cannot
arise from the splitting operations that produce these inputs. -/
def jsParseIntDec (s : Str) : Option Int :=
  let r := takeDigitRun s
  if r.1.isEmpty then none else some (decValue r.1)

/-- JavaScript parseInt(s, 16) under the same restriction, for hexadecimal. -/
def jsParseIntHex (s : Str) : Option Int :=
  match s with
  | [] => none
  | c :: _ =>
    if isHexCh c then some (hexValue (s.takeWhile isHexCh)) else none

/-- JavaScript Number(s) restricted to the strings the modelled code can feed
it (only reached for strings without dots and colons): a pure decimal-digit
string parses to its value, anything else is NaN (none). -/
def jsNumberDec (s : Str) : Option Int :=
  if ¬ s.isEmpty ∧ s.all Char.isDigit then some (decValue s) else none

/-!
Node's net.isIP validator.  Node implements isIPv4/isIPv6 with anchored
regular expressions (lib/internal/net.js); since the IPv4 segment pattern and
the dot separators are disjoint character classes, the regexes are equivalent
to the segment-wise checks below, and the IPv6 regex to the group-counting
check below (one optional '::' gap, groups of 1-4 hex digits, an optional
trailing embedded dotted quad counting as two groups, eight groups in total,
at most seven textual groups when a '::' gap is present, optional %zone).
-/

/-- One segment of a canonical dotted quad: 1-3 decimal digits, value 0-255,
no leading zero (the v4Seg alternation of Node's regex). -/
def v4SegOK : Str → Bool
  | [c] => c.isDigit
  | [c1, c2] => c1.isDigit && c2.isDigit && decide (c1 ≠ '0')
  | [c1, c2, c3] =>
    c1.isDigit && c2.isDigit && c3.isDigit && decide (c1 ≠ '0') && decide (decValue [c1, c2, c3] ≤ 255)
  | _ => false

/-- Node's isIPv4: four canonical segments separated by dots. -/
def isIPv4Chars (s : Str) : Bool :=
  match splitOnChar '.' s with
  | [a, b, c, d] => v4SegOK a && v4SegOK b && v4SegOK c && v4SegOK d
  | _ => false

/-- A textual IPv6 group: 1-4 hexadecimal digits. -/
def hexGroupOK (g : Str) : Bool := decide (1 ≤ g.length) && decide (g.length ≤ 4) && g.all isHexCh

/-- Number of (possibly overlapping) occurrences of '::' in a string. -/
def countDC : Str → Nat
  | ':' :: ':' :: rest => 1 + countDC (':' :: rest)
  | _ :: rest => countDC rest
  | [] => 0

/-- Split a string at its first '::' occurrence. -/
def splitDC : Str → Option (Str × Str)
  | ':' :: ':' :: rest => some ([], rest)
  | c :: rest => (splitDC rest).map (fun p => (c :: p.1, p.2))
  | [] => none

/-- Colon-separated groups of a (possibly empty) side of a '::' gap. -/
def colonGroups (s : Str) : List Str := if s.isEmpty then [] else splitOnChar ':' s

/-- Weight of a group list: hex groups weigh 1, a trailing embedded dotted
quad (only allowed when the flag is set) weighs 2; none if some group is
neither. -/
def groupsWeight : List Str → Bool → Option Nat
  | [], _ => some 0
  | [g], allowV4 =>
    if hexGroupOK g then some 1
    else if allowV4 && isIPv4Chars g then some 2
    else none
  | g :: rest, allowV4 =>
    if hexGroupOK g then (groupsWeight rest allowV4).map (· + 1) else none

/-- The zone suffix allowed after '%' in Node's IPv6 grammar. -/
def zoneOK (z : Str) : Bool :=
  decide (¬ z.isEmpty) && z.all (fun c => c.isAlphanum || c = '-' || c = '.' || c = ':')

/-- IPv6 body (without zone): either eight groups with no '::', or one '::'
gap with at most seven groups in total. -/
def v6BodyOK (s : Str) : Bool :=
  let dc := countDC s
  if dc = 0 then
    match groupsWeight (splitOnChar ':' s) true with
    | some 8 => true
    | _ => false
  else if dc = 1 then
    match splitDC s with
    | some (l, r) =>
      match groupsWeight (colonGroups l) false, groupsWeight (colonGroups r) true with
      | some wl, some wr => decide (wl + wr ≤ 7)
      | _, _ => false
    | none => false
  else false

/-- Node's isIPv6, including the optional %zone suffix. -/
def isIPv6Chars (s : Str) : Bool :=
  match splitOnChar '%' s with
  | [base] => v6BodyOK base
  | [base, zone] => v6BodyOK base && zoneOK zone
  | _ => false

/-- Node's net.isIP: 4 for IPv4 literals, 6 for IPv6 literals, 0 otherwise. -/
def isIPnet (s : Str) : Nat :=
  if isIPv4Chars s then 4 else if isIPv6Chars s then 6 else 0

/-!
The regular-expression predicates of the node-ip library (version 2.0.1).
Each regex test is translated into an equivalent explicit matcher: literal
prefixes become character-by-character comparisons, the backslash-d-{1,3}
groups become digit-run checks (a run longer than three digits cannot reach
the following literal dot or anchor, so greedy matching with backtracking
coincides with the run check), and the optional (::f{4}:)? prefix of a
case-insensitive pattern is handled by first stripping a case-insensitive
'::ffff:' prefix when present (a string starting with '::ffff:' can never
match the digit-initial remainder of those patterns at position zero).
-/

/-- Strip a literal pattern prefix (case-sensitive). -/
def stripChs : Str → Str → Option Str
  | [], s => some s
  | _ :: _, [] => none
  | p :: ps, c :: cs => if c = p then stripChs ps cs else none

/-- Strip a literal pattern prefix, comparing case-insensitively
(the pattern is given in lowercase). -/
def stripChsCI : Str → Str → Option Str
  | [], s => some s
  | _ :: _, [] => none
  | p :: ps, c :: cs => if c.toLower = p then stripChsCI ps cs else none

/-- Match a 1-3 digit group followed by a literal dot, returning the rest. -/
def matchD13Dot (s : Str) : Option Str :=
  let r := takeDigitRun s
  if 1 ≤ r.1.length ∧ r.1.length ≤ 3 then
    match r.2 with
    | '.' :: rest => some rest
    | _ => none
  else none

/-- Match a 1-3 digit group at the end of the string (anchored). -/
def matchD13End (s : Str) : Bool :=
  let r := takeDigitRun s
  decide (1 ≤ r.1.length) && decide (r.1.length ≤ 3) && r.2.isEmpty

/-- Match a 1-3 digit group with no anchor after it (at least one digit). -/
def matchD13Tail (s : Str) : Bool := decide (1 ≤ (takeDigitRun s).1.length)

/-- Strip an optional case-insensitive '::ffff:' prefix, modelling the
optional (::f-4:)? group of node-ip's case-insensitive patterns. -/
def stripV4Mapped (s : Str) : Str :=
  match stripChsCI (lit ("::ffff:")) s with
  | some r => r
  | none => s

/-- node-ip: the unanchored 127-dot pattern of isLoopback. -/
def test127 (s : Str) : Bool :=
  match stripChs (lit ("127.")) (stripV4Mapped s) with
  | some r1 =>
    match matchD13Dot r1 with
    | some r2 =>
      match matchD13Dot r2 with
      | some r3 => matchD13Tail r3
      | none => false
    | none => false
  | none => false

/-- node-ip: the anchored 10/8 pattern of isPrivate. -/
def test10 (s : Str) : Bool :=
  match stripChs (lit ("10.")) (stripV4Mapped s) with
  | some r1 =>
    match matchD13Dot r1 with
    | some r2 =>
      match matchD13Dot r2 with
      | some r3 => matchD13End r3
      | none => false
    | none => false
  | none => false

/-- node-ip: the anchored 192.168/16 pattern of isPrivate. -/
def test192168 (s : Str) : Bool :=
  match stripChs (lit ("192.168.")) (stripV4Mapped s) with
  | some r1 =>
    match matchD13Dot r1 with
    | some r2 => matchD13End r2
    | none => false
  | none => false

/-- node-ip: the anchored 169.254/16 pattern of isPrivate. -/
def test169254 (s : Str) : Bool :=
  match stripChs (lit ("169.254.")) (stripV4Mapped s) with
  | some r1 =>
    match matchD13Dot r1 with
    | some r2 => matchD13End r2
    | none => false
  | none => false

/-- The (1[6-9]|2 digit|30|31) alternation of the 172.16/12 pattern. -/
def match172Seg : Str → Option Str
  | '1' :: c :: rest => if '6' ≤ c ∧ c ≤ '9' then some rest else none
  | '2' :: c :: rest => if c.isDigit then some rest else none
  | '3' :: c :: rest => if c = '0' ∨ c = '1' then some rest else none
  | _ => none

/-- node-ip: the anchored 172.16/12 pattern of isPrivate. -/
def test172 (s : Str) : Bool :=
  match stripChs (lit ("172.")) (stripV4Mapped s) with
  | some r1 =>
    match match172Seg r1 with
    | some r2 =>
      match r2 with
      | '.' :: r3 =>
        match matchD13Dot r3 with
        | some r4 => matchD13End r4
        | none => false
      | _ => false
    | none => false
  | none => false

/-- node-ip: the f-cd-hex-hex-colon unique-local pattern of isPrivate,
matched character by character so a first-character failure short-circuits. -/
def testFcFd (s : Str) : Bool :=
  match s with
  | [] => false
  | a :: s1 =>
    decide (a.toLower = 'f') &&
      (match s1 with
       | [] => false
       | b :: s2 =>
         (decide (b.toLower = 'c') || decide (b.toLower = 'd')) &&
           (match s2 with
            | [] => false
            | c :: s3 =>
              isHexCh c &&
                (match s3 with
                 | [] => false
                 | d :: s4 =>
                   isHexCh d &&
                     (match s4 with
                      | [] => false
                      | e :: _ => decide (e = ':')))))

/-- node-ip: the fe80: link-local pattern of isPrivate. -/
def testFe80 (s : Str) : Bool := (stripChsCI (lit ("fe80:")) s).isSome

/-- node-ip: the anchored fe80::1 pattern of isLoopback. -/
def testFe80Loop (s : Str) : Bool :=
  match stripChsCI (lit ("fe80::1")) s with
  | some [] => true
  | _ => false

/-- node-ip: the anchored 0177. octal-loopback pattern of isLoopback. -/
def test0177 (s : Str) : Bool := (stripChs (lit ("0177.")) s).isSome

/-- node-ip: the anchored 0x7f. hex-loopback pattern of isLoopback. -/
def test0x7f (s : Str) : Bool := (stripChsCI (lit ("0x7f.")) s).isSome

/-- node-ip ip.fromLong of an unsigned 32-bit value. -/
def ipFromLongNat (u : Nat) : Str :=
  renderDec (u / 16777216) ++ '.' :: renderDec (u / 65536 % 256) ++
    '.' :: renderDec (u / 256 % 256) ++ '.' :: renderDec (u % 256)

/-- node-ip: the anchored ::1 pattern. -/
def testColonOne (s : Str) : Bool := s = lit ("::1")

/-- node-ip: the anchored :: pattern. -/
def testColonColonEnd (s : Str) : Bool := s = lit ("::")

/-- node-ip 2.0.1 ip.isLoopback: strings with neither dot nor colon are first
converted as long-integer forms via Number and fromLong, then the loopback
patterns are tested. -/
def ipIsLoopback (addr : Str) : Bool :=
  let a :=
    if ¬ addr.contains '.' ∧ ¬ addr.contains ':' then
      ipFromLongNat
        (match jsNumberDec addr with
         | some v => jsToUint32 v
         | none => 0)
    else addr
  test127 a || test0177 a || test0x7f a || testFe80Loop a || testColonOne a || testColonColonEnd a

/-- node-ip 2.0.1 ip.isPrivate: loopback addresses are private (checked
first), then the RFC 1918, link-local and unique-local patterns. -/
def ipIsPrivate (addr : Str) : Bool :=
  ipIsLoopback addr || test10 addr || test192168 addr || test172 addr ||
    test169254 addr || testFcFd addr || testFe80 addr

/-!
Exact dyadic rationals.  The address-count fields of node-ip's ip.subnet are
JavaScript numbers that become fractional binary values for masks longer
than 32 bits; every operation the modelled code performs on them (powers of
two, addition, subtraction, max, comparison, truncation) is exact on IEEE
doubles for the magnitudes involved, so they are modelled by numerator
divided by a power of two, kept canonical (odd numerator or zero exponent)
so that structural equality is value equality.
-/

/-- An exact dyadic rational: num / 2 ^ exp, canonical when constructed via
Dyadic.normAux. -/
structure Dyadic where
  num : Int
  exp : Nat
deriving DecidableEq, Repr

/-- Canonicalization: divide out factors of two while the exponent is
positive. -/
def Dyadic.normAux : Int → Nat → Dyadic
  | n, 0 => ⟨n, 0⟩
  | n, e + 1 => if n % 2 = 0 then Dyadic.normAux (n / 2) e else ⟨n, e + 1⟩

/-- Embedding of an integer. -/
def Dyadic.ofInt (n : Int) : Dyadic := ⟨n, 0⟩

instance (n : Nat) : OfNat Dyadic n := ⟨⟨(n : Int), 0⟩⟩

instance : Add Dyadic :=
  ⟨fun a b => Dyadic.normAux (a.num * 2 ^ b.exp + b.num * 2 ^ a.exp) (a.exp + b.exp)⟩

instance : Neg Dyadic := ⟨fun a => ⟨-a.num, a.exp⟩⟩

instance : Sub Dyadic :=
  ⟨fun a b => Dyadic.normAux (a.num * 2 ^ b.exp - b.num * 2 ^ a.exp) (a.exp + b.exp)⟩

instance : LE Dyadic := ⟨fun a b => a.num * 2 ^ b.exp ≤ b.num * 2 ^ a.exp⟩

instance : DecidableRel (fun a b : Dyadic => a ≤ b) :=
  fun a b => inferInstanceAs (Decidable (a.num * 2 ^ b.exp ≤ b.num * 2 ^ a.exp))

/-- JavaScript Math.max on exact dyadic values. -/
def Dyadic.maxD (a b : Dyadic) : Dyadic := if a ≤ b then b else a

/-- Truncation toward zero (the integer part JavaScript's ToUint32 starts
from); Lean's Int division already rounds toward zero. -/
def Dyadic.trunc (a : Dyadic) : Int := a.num / (2 ^ a.exp : Int)

/-!
node-ip buffers, long conversion, masking and subnets (version 2.0.1).
Buffers are modelled as lists of bytes, JavaScript numbers by exact dyadic
rationals, with the truncating ToUint32 conversion of the bitwise operators
in ip.fromLong made explicit.
-/

/-- node-ip isV4Format: four dot-separated groups of one to three decimal
digits (values are not range-checked by this format regex). -/
def isV4Format (s : Str) : Bool :=
  match splitOnChar '.' s with
  | [a, b, c, d] =>
    [a, b, c, d].all (fun g => decide (1 ≤ g.length) && decide (g.length ≤ 3) && g.all Char.isDigit)
  | _ => false

/-- node-ip isV6Format is a permissive pre-check regex; on every string this
development evaluates it agrees with: nonempty, contains a colon, and made of
hexadecimal digits, colons and dots only. -/
def isV6FormatLoose (s : Str) : Bool :=
  s.contains ':' && decide (¬ s.isEmpty) && s.all (fun c => isHexCh c || c = ':' || c = '.')

/-- One byte of node-ip's IPv4 toBuffer: parseInt(segment, 10) masked with
0xff (NaN, which cannot arise for digit segments, would become 0). -/
def segByte (g : Str) : Nat :=
  match jsParseIntDec g with
  | some v => Nat.land (jsToUint32 v) 255
  | none => 0

/-- Two-digit lowercase hexadecimal rendering of one byte
(Buffer.toString('hex')). -/
def padHex2 (b : Nat) : Str := if b < 16 then '0' :: renderHex b else renderHex b

/-- Expansion of an embedded dotted-quad section into its two 16-bit hex
groups, as performed by node-ip's IPv6 toBuffer loop; the final take 8
models the bound the loop places on the section index. -/
def expandV4Sections (sections : List Str) : List Str :=
  (sections.flatMap (fun sec =>
    if isV4Format sec then
      match (splitOnChar '.' sec).map segByte with
      | [b0, b1, b2, b3] => [padHex2 b0 ++ padHex2 b1, padHex2 b2 ++ padHex2 b3]
      | _ => [sec]
    else [sec])).take 8

/-- Zero-group filling of the '::' gap: a leading gap is filled by
prepending zero groups, a trailing gap by appending them, and an inner gap
by replacing the empty section with enough zero groups to reach eight. -/
def fillDoubleColon (sections : List Str) : List Str :=
  if sections.head? = some ([] : Str) then
    List.replicate (8 - sections.length) (lit ("0")) ++ sections
  else if sections.getLast? = some ([] : Str) then
    sections ++ List.replicate (8 - sections.length) (lit ("0"))
  else if sections.length < 8 then
    match sections.span (fun g => ¬ g.isEmpty) with
    | (pre, _ :: post) => pre ++ List.replicate (9 - sections.length) (lit ("0")) ++ post
    | (pre, []) => pre
  else sections

/-- node-ip toBuffer for IPv6 literals: split on ':' (limit 8), expand any
embedded dotted quad, fill the '::' gap, then write each group with
writeUInt16BE, which throws (none) on NaN or out-of-range words; missing
trailing bytes of the 16-byte buffer stay zero. -/
def toBufferV6 (s : Str) : Option (List Nat) := do
  let sections := fillDoubleColon (expandV4Sections ((splitOnChar ':' s).take 8))
  let words ← sections.mapM (fun sec =>
    match jsParseIntHex sec with
    | some v => if 0 ≤ v ∧ v ≤ 65535 then some v.toNat else none
    | none => none)
  let bytes := words.flatMap (fun w => [w / 256, w % 256])
  pure ((bytes ++ List.replicate 16 0).take 16)

/-- node-ip ip.toBuffer: the IPv4 format is tried first, then IPv6; anything
else throws (none). -/
def ipToBuffer (s : Str) : Option (List Nat) :=
  if isV4Format s then some ((splitOnChar '.' s).map segByte)
  else if isV6FormatLoose s then toBufferV6 s
  else none

/-- Join string pieces with a separator character. -/
def joinSep (c : Char) : List Str → Str
  | [] => []
  | [g] => g
  | g :: gs => g ++ c :: joinSep c gs

/-- 16-bit words of a byte buffer, big-endian. -/
def bufWords : List Nat → List Nat
  | b0 :: b1 :: rest => (b0 * 256 + b1) :: bufWords rest
  | _ => []

/-- Leftmost maximal run of at least two zero groups (index and length);
this is what the zero-compression regex replace of node-ip's toString
selects on a group list. -/
def findZeroRun : List Nat → Option (Nat × Nat)
  | 0 :: 0 :: rest => some (0, 2 + (rest.takeWhile (· = 0)).length)
  | _ :: rest => (findZeroRun rest).map (fun p => (p.1 + 1, p.2))
  | [] => none

/-- node-ip toString of a 16-byte buffer: lowercase hex groups joined by
colons, with the leftmost run of two or more zero groups compressed to '::'
(the composition of the two regex replaces in the source). -/
def v6GroupsToStr (ws : List Nat) : Str :=
  match findZeroRun ws with
  | some (i, len) =>
    joinSep ':' ((ws.take i).map renderHex) ++ lit ("::") ++
      joinSep ':' ((ws.drop (i + len)).map renderHex)
  | none => joinSep ':' (ws.map renderHex)

/-- node-ip ip.toString on a buffer of four or sixteen bytes. -/
def bufToStr (b : List Nat) : Str :=
  if b.length = 4 then joinSep '.' (b.map renderDec)
  else if b.length = 16 then v6GroupsToStr (bufWords b)
  else []

/-- node-ip ip.toLong: fold the dot-separated pieces with ipl = (ipl << 8) +
parseInt(piece), then >>> 0.  ToInt32 maps NaN to 0, so a NaN accumulator is
reset by the shift, and a NaN result becomes 0 under ToUint32. -/
def jsToLong (s : Str) : Nat :=
  let acc := (splitOnChar '.' s).foldl
    (fun acc seg =>
      let shifted := jsToInt32 ((match acc with
        | none => (0 : Int)
        | some v => jsToInt32 v) * 256)
      match jsParseIntDec seg with
      | none => none
      | some n => some (shifted + n))
    (some (0 : Int))
  match acc with
  | none => 0
  | some v => jsToUint32 v

/-- node-ip ip.mask: same-length buffers are combined bytewise; otherwise the
result is the IPv4-mapped ::ffff: buffer whose last four bytes combine the
IPv4 side with the last four bytes of the IPv6 side. -/
def ipMask (addrS maskS : Str) : Option Str := do
  let addr ← ipToBuffer addrS
  let mask ← ipToBuffer maskS
  if addr.length = mask.length then
    pure (bufToStr (List.zipWith Nat.land addr mask))
  else if mask.length = 16 then
    pure (bufToStr (List.replicate 10 0 ++ [255, 255] ++ List.zipWith Nat.land addr (mask.drop 12)))
  else
    pure (bufToStr (List.replicate 10 0 ++ [255, 255] ++ List.zipWith Nat.land (addr.drop 12) mask))

/-- One byte of node-ip ip.fromPrefixLen: bits = min(prefix, 8) with NaN
comparing false (hence 8), byte = complement of 0xff shifted right by bits,
with the JavaScript shift count taken modulo 32 after ToUint32. -/
def fromPrefixLenBytes : Nat → Option Int → List Nat
  | 0, _ => []
  | len + 1, p =>
    let bits : Int :=
      match p with
      | some v => if v < 8 then v else 8
      | none => 8
    let byte := 255 - 255 / 2 ^ (jsToUint32 bits % 32)
    byte :: fromPrefixLenBytes len (p.map (fun v => v - bits))

/-- node-ip ip.fromPrefixLen: IPv6 for prefixes above 32, IPv4 otherwise
(NaN compares false, giving IPv4). -/
def ipFromPrefixLen (p : Option Int) : Str :=
  let len : Nat :=
    match p with
    | some v => if v > 32 then 16 else 4
    | none => 4
  bufToStr (fromPrefixLenBytes len p)

/-- Iteration count of the while-octet loop in node-ip's mask-length
computation: the number of doublings modulo 256 until the byte is zero. -/
def maskOctetBitsAux : Nat → Nat → Nat
  | 0, _ => 0
  | f + 1, oct => if oct % 256 = 0 then 0 else 1 + maskOctetBitsAux f (oct * 2 % 256)

/-- JavaScript 2 ** e as an exact dyadic rational (negative exponents give
exact binary fractions). -/
def jsPow2 (e : Int) : Dyadic :=
  if 0 ≤ e then ⟨(2 ^ e.toNat : Nat), 0⟩ else ⟨1, (-e).toNat⟩

/-- JavaScript ToUint32 of an exact dyadic value: truncation toward zero,
then modulo 2^32. -/
def dyadicToUint32 (q : Dyadic) : Nat := jsToUint32 q.trunc

/-- The record returned by node-ip ip.subnet, together with the two values
its contains closure captures (the network long and the mask string). -/
structure SubnetInfoJS where
  networkAddress : Str
  firstAddress : Str
  lastAddress : Str
  broadcastAddress : Str
  subnetMask : Str
  subnetMaskLength : Nat
  numHosts : Dyadic
  size : Dyadic
  networkLong : Nat
  maskStr : Str
deriving Repr, DecidableEq

/-- node-ip ip.subnet.  The size field models the record's length field. -/
def ipSubnet (addrS maskS : Str) : Option SubnetInfoJS := do
  let maskedStr ← ipMask addrS maskS
  let networkLong := jsToLong maskedStr
  let maskBuf ← ipToBuffer maskS
  let maskLength := maskBuf.foldl
    (fun acc b => acc + (if b = 255 then 8 else maskOctetBitsAux 8 b)) 0
  let n : Dyadic := jsPow2 (32 - (maskLength : Int))
  pure {
    networkAddress := ipFromLongNat networkLong
    firstAddress :=
      if n ≤ 2 then ipFromLongNat networkLong
      else ipFromLongNat (dyadicToUint32 (Dyadic.ofInt (networkLong : Int) + 1))
    lastAddress :=
      if n ≤ 2 then ipFromLongNat (dyadicToUint32 (Dyadic.ofInt (networkLong : Int) + n - 1))
      else ipFromLongNat (dyadicToUint32 (Dyadic.ofInt (networkLong : Int) + n - 2))
    broadcastAddress := ipFromLongNat (dyadicToUint32 (Dyadic.ofInt (networkLong : Int) + n - 1))
    subnetMask := maskS
    subnetMaskLength := maskLength
    numHosts := if n ≤ 2 then n else n - 2
    size := n
    networkLong := networkLong
    maskStr := maskS }

/-- The contains closure of node-ip ip.subnet: the masked other address,
converted with toLong, must equal the captured network long; none models an
exception thrown while masking. -/
def subnetContains (sub : SubnetInfoJS) (other : Str) : Option Bool :=
  (ipMask other sub.maskStr).map (fun m => jsToLong m = sub.networkLong)

/-- node-ip ip.cidrSubnet: split at '/', convert the prefix with parseInt
and fromPrefixLen; a malformed CIDR string throws (none). -/
def ipCidrSubnet (cidr : Str) : Option SubnetInfoJS :=
  match splitOnChar '/' cidr with
  | [addr, plen] => ipSubnet addr (ipFromPrefixLen (jsParseIntDec plen))
  | _ => none

/-- A cidrSubnet(range).contains(addr) call wrapped in try/catch returning
false, as both services do. -/
def cidrContainsCaught (range : Str) (s : Str) : Bool :=
  match ipCidrSubnet range with
  | none => false
  | some sub => (subnetContains sub s).getD false

/-!
Data model of the detection service (packages/backend/src/types/ip.ts):
candidate classification, origin and the candidate record itself.  The
constructor priv models the source's 'private' classification string (private
is a Lean keyword); the IPSource constructors model the source strings
'socket', 'x-forwarded-for', 'x-real-ip', 'cf-connecting-ip',
'x-cluster-client-ip' and 'forwarded'.
-/

/-- Candidate classification. -/
inductive IPType where
  | public
  | priv
  | reserved
  | loopback
  | multicast
  | broadcast
deriving DecidableEq, Repr

/-- Candidate origin (the source field of the candidate record). -/
inductive IPSource where
  | socket
  | xForwardedFor
  | xRealIP
  | cfConnectingIP
  | xClusterClientIP
  | forwarded
deriving DecidableEq, Repr

/-- The IPAddress record of the detection service. -/
structure IPAddress where
  address : Str
  version : Nat
  type : IPType
  source : IPSource
  confidence : Nat
deriving DecidableEq, Repr

/-- The slice of the Express request consumed by the detection service:
the transport peer address, Express's req.ip fallback, and the five headers
it reads.  none models an absent header, and JavaScript treats the empty
string as falsy wherever these are tested. -/
structure Request where
  socketRemoteAddress : Option Str := none
  reqIp : Option Str := none
  xForwardedFor : Option Str := none
  xRealIP : Option Str := none
  cfConnectingIP : Option Str := none
  xClusterClientIP : Option Str := none
  forwarded : Option Str := none
deriving Repr

/-- JavaScript a or-else b on nullable strings: a is taken when truthy
(present and nonempty). -/
def jsOrStr (a b : Option Str) : Option Str :=
  match a with
  | some s => if s.isEmpty then b else some s
  | none => b

/-- JavaScript String.prototype.trim. -/
def jsTrim (s : Str) : Str :=
  ((s.dropWhile Char.isWhitespace).reverse.dropWhile Char.isWhitespace).reverse

namespace IPDetectionService

/-- normalizeIP: the global replace of a leading left bracket and a trailing
right bracket (the two alternatives of the anchored regex are independent). -/
def normalizeIP (s : Str) : Str :=
  let s1 := match s with
    | '[' :: rest => rest
    | _ => s
  match s1.getLast? with
  | some ']' => s1.dropLast
  | _ => s1

/-- The reserved CIDR list of isReservedIP, in source order. -/
def reservedRanges : List Str :=
  [lit ("0.0.0.0/8"), lit ("169.254.0.0/16"), lit ("224.0.0.0/4"),
   lit ("240.0.0.0/4"), lit ("255.255.255.255/32")]

/-- isReservedIP: some range contains the address, each containment wrapped
in try/catch returning false. -/
def isReservedIP (ipStr : Str) : Bool :=
  reservedRanges.any (fun r => cidrContainsCaught r ipStr)

/-- isMulticastIP: containment in 224.0.0.0/4, with catch returning false. -/
def isMulticastIP (ipStr : Str) : Bool :=
  cidrContainsCaught (lit ("224.0.0.0/4")) ipStr

/-- isBroadcastIP: literal string comparison. -/
def isBroadcastIP (ipStr : Str) : Bool := ipStr = lit ("255.255.255.255")

/-- classifyIPType of ipDetection.ts: private first, then loopback, reserved,
multicast, broadcast, and public as the fallthrough. -/
def classifyIPType (ipStr : Str) : IPType :=
  if ipIsPrivate ipStr then .priv
  else if ipIsLoopback ipStr then .loopback
  else if isReservedIP ipStr then .reserved
  else if isMulticastIP ipStr then .multicast
  else if isBroadcastIP ipStr then .broadcast
  else .public

/-- extractSocketIP: req.socket.remoteAddress or-else req.ip, dropped when
falsy or not an IP literal; confidence 70. -/
def extractSocketIP (req : Request) : Option IPAddress :=
  match jsOrStr req.socketRemoteAddress req.reqIp with
  | none => none
  | some s =>
    if s.isEmpty ∨ isIPnet s = 0 then none
    else some {
      address := normalizeIP s
      version := isIPnet s
      type := classifyIPType s
      source := .socket
      confidence := 70 }

/-- extractForwardedForIPs: split X-Forwarded-For on commas, trim each piece,
keep the valid IP literals; the piece at index 0 gets confidence 90 and the
piece at index i gets max(50 - 10 i, 10), indices counted over all pieces. -/
def extractForwardedForIPs (req : Request) : List IPAddress :=
  match req.xForwardedFor with
  | none => []
  | some hdr =>
    if hdr.isEmpty then []
    else
      ((splitOnChar ',' hdr).map jsTrim).enum.foldl
        (fun acc p =>
          if isIPnet p.2 ≠ 0 then
            acc ++ [{
              address := normalizeIP p.2
              version := isIPnet p.2
              type := classifyIPType p.2
              source := .xForwardedFor
              confidence := if p.1 = 0 then 90 else (max ((50 : Int) - p.1 * 10) 10).toNat }]
          else acc)
        []

/-- extractRealIP: the X-Real-IP header when truthy and a valid literal;
confidence 85. -/
def extractRealIP (req : Request) : Option IPAddress :=
  match req.xRealIP with
  | none => none
  | some s =>
    if s.isEmpty ∨ isIPnet s = 0 then none
    else some {
      address := normalizeIP s
      version := isIPnet s
      type := classifyIPType s
      source := .xRealIP
      confidence := 85 }

/-- extractCloudflareIP: the CF-Connecting-IP header; confidence 95. -/
def extractCloudflareIP (req : Request) : Option IPAddress :=
  match req.cfConnectingIP with
  | none => none
  | some s =>
    if s.isEmpty ∨ isIPnet s = 0 then none
    else some {
      address := normalizeIP s
      version := isIPnet s
      type := classifyIPType s
      source := .cfConnectingIP
      confidence := 95 }

/-- extractClusterIP: the X-Cluster-Client-IP header; confidence 80. -/
def extractClusterIP (req : Request) : Option IPAddress :=
  match req.xClusterClientIP with
  | none => none
  | some s =>
    if s.isEmpty ∨ isIPnet s = 0 then none
    else some {
      address := normalizeIP s
      version := isIPnet s
      type := classifyIPType s
      source := .xClusterClientIP
      confidence := 80 }

/-- The character class of the for-parameter capture: anything except a
semicolon, a comma and whitespace. -/
def forCaptureValid (c : Char) : Bool := ¬ (c = ';' ∨ c = ',' ∨ c.isWhitespace)

/-- Attempt of the for-equals pattern at the head of the string: the literal
'for=' followed by a nonempty capture run. -/
def forMatchAt : Str → Option Str
  | 'f' :: 'o' :: 'r' :: '=' :: rest =>
    let run := rest.takeWhile forCaptureValid
    if run.isEmpty then none else some run
  | _ => none

/-- Leftmost match of the for-equals pattern in the entry (regex scan). -/
def findForMatch : Str → Option Str
  | [] => none
  | c :: rest =>
    match forMatchAt (c :: rest) with
    | some r => some r
    | none => findForMatch rest

/-- The global replace removing double quotes and square brackets. -/
def removeQuotesBrackets (s : Str) : Str :=
  s.filter (fun c => ¬ (c = '"' ∨ c = '[' ∨ c = ']'))

/-- Match of the anchored dot-plus-colon-digits pattern used to strip a
trailing port: the greedy first group ends at the last colon whose nonempty
suffix is all digits, and the group before it must be nonempty. -/
def lastColonSplit (s : Str) : Option (Str × Str) :=
  let rs := s.reverse
  let digits := rs.takeWhile Char.isDigit
  match rs.drop digits.length with
  | ':' :: preRev =>
    if digits.isEmpty ∨ preRev.isEmpty then none
    else some (preRev.reverse, digits.reverse)
  | _ => none

/-- extractForwardedRFC: split the Forwarded header on commas, extract each
for-parameter, strip quotes and brackets, strip a trailing port when the
remainder is a valid literal, and keep valid literals with confidence 75. -/
def extractForwardedRFC (req : Request) : List IPAddress :=
  match req.forwarded with
  | none => []
  | some hdr =>
    if hdr.isEmpty then []
    else
      (splitOnChar ',' hdr).foldl
        (fun acc entry =>
          match findForMatch entry with
          | none => acc
          | some captured =>
            let s0 := removeQuotesBrackets captured
            let ipStr :=
              match lastColonSplit s0 with
              | some (pre, _) => if isIPnet pre ≠ 0 then pre else s0
              | none => s0
            if isIPnet ipStr ≠ 0 then
              acc ++ [{
                address := normalizeIP ipStr
                version := isIPnet ipStr
                type := classifyIPType ipStr
                source := .forwarded
                confidence := 75 }]
            else acc)
        []

/-- Worker of deduplicateIPs carrying the seen-address set. -/
def dedupAux : List Str → List IPAddress → List IPAddress
  | _, [] => []
  | seen, x :: rest =>
    if x.address ∈ seen then dedupAux seen rest
    else x :: dedupAux (x.address :: seen) rest

/-- deduplicateIPs: keep the first occurrence of each address. -/
def deduplicateIPs (ips : List IPAddress) : List IPAddress := dedupAux [] ips

/-- extractAllIPs: socket, X-Forwarded-For, X-Real-IP, CF-Connecting-IP,
X-Cluster-Client-IP and Forwarded candidates in that order, deduplicated. -/
def extractAllIPs (req : Request) : List IPAddress :=
  deduplicateIPs
    ((extractSocketIP req).toList ++ extractForwardedForIPs req ++
      (extractRealIP req).toList ++ (extractCloudflareIP req).toList ++
      (extractClusterIP req).toList ++ extractForwardedRFC req)

/-- Insertion into a list sorted by descending confidence, passing strictly
higher confidences so that earlier elements stay ahead of equals. -/
def insertDesc (x : IPAddress) : List IPAddress → List IPAddress
  | [] => [x]
  | y :: ys => if y.confidence > x.confidence then y :: insertDesc x ys else x :: y :: ys

/-- The stable descending-confidence sort performed by the source's
spread-copy-then-sort with comparator b.confidence - a.confidence.
ECMAScript Array.prototype.sort is stable, and a stable sort for a fixed
comparison is unique, so stable insertion produces the same list. -/
def sortConfDesc : List IPAddress → List IPAddress
  | [] => []
  | x :: l => insertDesc x (sortConfDesc l)

/-- determinePrimaryIP: empty gives null, a single candidate is returned
directly; otherwise sort a copy by descending confidence, and return the
first public candidate of the sorted list if any, else its first element. -/
def determinePrimaryIP (ips : List IPAddress) : Option IPAddress :=
  if ips.length = 0 then none
  else if ips.length = 1 then ips.head?
  else
    let sortedIPs := sortConfDesc ips
    let publicIPs := sortedIPs.filter (fun i => decide (i.type = IPType.public))
    if publicIPs.length > 0 then publicIPs.head? else sortedIPs.head?

/-- The IPAnalysis record assembled by analyzeConnection. -/
structure IPAnalysis where
  primaryIP : IPAddress
  allDetectedIPs : List IPAddress
deriving DecidableEq, Repr

/-- The IP-analysis core of analyzeConnection: extract all candidates,
determine the primary, and throw when none is found.  Connection metadata,
timestamps and logging performed by the full function do not touch the
candidate data and are outside the modelled state. -/
def analyzeConnection (req : Request) : Except String IPAnalysis :=
  let allIPs := extractAllIPs req
  match determinePrimaryIP allIPs with
  | none => .error ("No valid IP address detected")
  | some p => .ok { primaryIP := p, allDetectedIPs := allIPs }

end IPDetectionService

namespace IPClassificationService

/-- The RESERVED_RANGES table (packages/backend/src/services/ipClassification.ts),
modelled by its cidr fields in source order; classifyIP and isInRanges consult
only the cidr field of each range record. -/
def RESERVED_RANGES : List Str :=
  [lit ("0.0.0.0/8"), lit ("127.0.0.0/8"), lit ("169.254.0.0/16"),
   lit ("224.0.0.0/4"), lit ("240.0.0.0/4"), lit ("255.255.255.255/32"),
   lit ("::/128"), lit ("::1/128"), lit ("::ffff:0:0/96"),
   lit ("2001:db8::/32"), lit ("ff00::/8")]

/-- isInRanges: some cidr contains the address, each containment wrapped in
try/catch returning false. -/
def isInRanges (ipAddress : Str) (ranges : List Str) : Bool :=
  ranges.any (fun r => cidrContainsCaught r ipAddress)

/-- isMulticast: 224.0.0.0/4 containment for IPv4 (catch gives false), the
lowercase ff prefix for IPv6. -/
def isMulticast (ipAddress : Str) : Bool :=
  let version := isIPnet ipAddress
  if version = 4 then cidrContainsCaught (lit ("224.0.0.0/4")) ipAddress
  else if version = 6 then (stripChs (lit ("ff")) (ipAddress.map Char.toLower)).isSome
  else false

/-- isBroadcast: literal string comparison. -/
def isBroadcast (ipAddress : Str) : Bool := ipAddress = lit ("255.255.255.255")

/-- classifyIP: throws on invalid literals, then loopback, private, the
family-matching reserved ranges, multicast, broadcast, public. -/
def classifyIP (ipAddress : Str) : Except String IPType :=
  if isIPnet ipAddress = 0 then
    .error ("Invalid IP address: " ++ String.mk ipAddress)
  else if ipIsLoopback ipAddress then .ok .loopback
  else if ipIsPrivate ipAddress then .ok .priv
  else
    let ipVersion := isIPnet ipAddress
    let relevantReservedRanges :=
      RESERVED_RANGES.filter (fun cidr => decide (ipVersion = 4) == (! cidr.contains ':'))
    if isInRanges ipAddress relevantReservedRanges then .ok .reserved
    else if isMulticast ipAddress then .ok .multicast
    else if isBroadcast ipAddress then .ok .broadcast
    else .ok .public

/-- The record returned by calculateSubnet. -/
structure SubnetCalcResult where
  network : Str
  broadcast : Str
  firstHost : Str
  lastHost : Str
  totalHosts : Dyadic
  usableHosts : Dyadic
  cidr : Str
deriving DecidableEq, Repr

/-- calculateSubnet: both arguments must be IP literals, then ip.subnet is
consulted; totalHosts copies the library's numHosts and usableHosts subtracts
two more (floored at zero); an exception inside ip.subnet is caught and
rethrown with a generic message. -/
def calculateSubnet (ipAddress subnetMask : Str) : Except String SubnetCalcResult :=
  if isIPnet ipAddress = 0 ∨ isIPnet subnetMask = 0 then
    .error ("Invalid IP address or subnet mask")
  else
    match ipSubnet ipAddress subnetMask with
    | none => .error ("Failed to calculate subnet information")
    | some sub => .ok {
        network := sub.networkAddress
        broadcast := sub.broadcastAddress
        firstHost := sub.firstAddress
        lastHost := sub.lastAddress
        totalHosts := sub.numHosts
        usableHosts := Dyadic.maxD 0 (sub.numHosts - 2)
        cidr := sub.networkAddress ++ '/' :: renderDec sub.subnetMaskLength }

/-- cidrToSubnetMask: prefixes outside 0-32 are rejected; otherwise the mask
is 0xffffffff shifted left by (32 - cidr) with the JavaScript shift count
taken modulo 32, coerced with triple-shift-zero, and joined as dotted
octets. -/
def cidrToSubnetMask (cidr : Int) : Except String Str :=
  if cidr < 0 ∨ cidr > 32 then .error ("CIDR must be between 0 and 32")
  else
    let mask := jsToUint32 (jsToInt32 (jsToInt32 (4294967295 : Int) * 2 ^ (jsToUint32 (32 - cidr) % 32)))
    .ok (joinSep '.'
      [renderDec (Nat.land (mask / 16777216) 255), renderDec (Nat.land (mask / 65536) 255),
       renderDec (Nat.land (mask / 256) 255), renderDec (Nat.land mask 255)])

/-- Count of leading one bits of an octet's eight-bit binary string, which is
what indexOf of the character zero computes on toString(2).padStart(8). -/
def leadingOnesBits : Nat → Nat → Nat
  | 0, _ => 0
  | k + 1, part => if part / 2 ^ k % 2 = 1 then 1 + leadingOnesBits k part else 0

/-- The accumulating loop of subnetMaskToCidr: a 255 octet adds eight bits
and continues, any other octet adds its leading ones and breaks. -/
def subnetMaskToCidrGo : List Nat → Nat → Nat
  | [], acc => acc
  | p :: rest, acc =>
    if p = 255 then subnetMaskToCidrGo rest (acc + 8) else acc + leadingOnesBits 8 p

/-- subnetMaskToCidr: rejects non-IP strings, then sums leading one bits of
the dot-separated octets up to the first octet with a zero bit.  No
contiguity validation is performed. -/
def subnetMaskToCidr (subnetMask : Str) : Except String Nat :=
  if isIPnet subnetMask = 0 then .error ("Invalid subnet mask")
  else
    let parts := (splitOnChar '.' subnetMask).map (fun p =>
      match jsNumberDec p with
      | some v => v.toNat
      | none => 0)
    .ok (subnetMaskToCidrGo parts 0)

end IPClassificationService

/-!
Specification-side characterization of primary selection, written from the
words of spec section 4.4, to be compared with the source's
determinePrimaryIP: sort descending by confidence with extraction-order
tie-break (stable sort), prefer the public partition when nonempty.
Selecting the highest-confidence element with ties broken by extraction
order is selecting the first element of maximal confidence.
-/

/-- First element of maximal confidence of a list (ties go to the earlier
element), as the spec's stable descending sort followed by taking the head. -/
def firstMax : List IPAddress → Option IPAddress
  | [] => none
  | x :: l =>
    match firstMax l with
    | none => some x
    | some m => if m.confidence > x.confidence then some m else some x

/-- Primary selection as the spec words it: none for an empty list; otherwise
the highest-confidence public candidate (extraction-order tie-break) when a
public candidate exists, else the highest-confidence candidate overall. -/
def specSelectPrimary (l : List IPAddress) : Option IPAddress :=
  if l.isEmpty then none
  else
    let publics := l.filter (fun i => decide (i.type = IPType.public))
    if publics.isEmpty then firstMax l else firstMax publics

namespace IPDetectionService

/-- Membership is preserved by descending insertion. -/
theorem mem_insertDesc (x a : IPAddress) (s : List IPAddress) :
    a ∈ insertDesc x s ↔ a = x ∨ a ∈ s := by
  induction s with
  | nil => simp [insertDesc]
  | cons y ys ih =>
    simp only [insertDesc]
    split
    · simp only [List.mem_cons, ih]
      tauto
    · simp [List.mem_cons]

/-- Membership is preserved by the stable descending sort. -/
theorem mem_sortConfDesc (a : IPAddress) (l : List IPAddress) :
    a ∈ sortConfDesc l ↔ a ∈ l := by
  induction l with
  | nil => simp [sortConfDesc]
  | cons x l ih => simp [sortConfDesc, mem_insertDesc, ih]

/-- Descending insertion adds one element to the length. -/
theorem length_insertDesc (x : IPAddress) (s : List IPAddress) :
    (insertDesc x s).length = s.length + 1 := by
  induction s with
  | nil => rfl
  | cons y ys ih =>
    simp only [insertDesc]
    split
    · simp [ih]
    · simp

/-- The stable descending sort preserves the length. -/
theorem length_sortConfDesc (l : List IPAddress) :
    (sortConfDesc l).length = l.length := by
  induction l with
  | nil => rfl
  | cons x l ih => simp [sortConfDesc, length_insertDesc, ih]

/-- Descending insertion preserves descending sortedness. -/
theorem sorted_insertDesc (x : IPAddress) {s : List IPAddress}
    (h : s.Pairwise (fun p q => q.confidence ≤ p.confidence)) :
    (insertDesc x s).Pairwise (fun p q => q.confidence ≤ p.confidence) := by
  induction s with
  | nil => simp [insertDesc]
  | cons y ys ih =>
    rcases List.pairwise_cons.mp h with ⟨hy, hys⟩
    simp only [insertDesc]
    split
    · next hgt =>
      refine List.pairwise_cons.mpr ⟨?_, ih hys⟩
      intro z hz
      rcases (mem_insertDesc x z ys).mp hz with rfl | hzys
      · omega
      · exact hy z hzys
    · next hle =>
      refine List.pairwise_cons.mpr ⟨?_, h⟩
      intro z hz
      rcases List.mem_cons.mp hz with rfl | hzys
      · omega
      · have := hy z hzys
        omega

/-- The stable descending sort sorts by descending confidence. -/
theorem sorted_sortConfDesc (l : List IPAddress) :
    (sortConfDesc l).Pairwise (fun p q => q.confidence ≤ p.confidence) := by
  induction l with
  | nil => simp [sortConfDesc]
  | cons x l ih => exact sorted_insertDesc x ih

/-- Inserting above every element of the list puts the element in front. -/
theorem insertDesc_eq_cons {x : IPAddress} {s : List IPAddress}
    (h : ∀ z ∈ s, z.confidence ≤ x.confidence) : insertDesc x s = x :: s := by
  cases s with
  | nil => rfl
  | cons y ys =>
    simp only [insertDesc]
    rw [if_neg]
    have := h y (by simp)
    omega

/-- The head of the stable descending sort is the first element of maximal
confidence. -/
theorem sortConfDesc_head? (l : List IPAddress) :
    (sortConfDesc l).head? = firstMax l := by
  induction l with
  | nil => rfl
  | cons x l ih =>
    simp only [sortConfDesc, firstMax]
    cases hs : sortConfDesc l with
    | nil =>
      have hl : l = [] := by
        have := length_sortConfDesc l
        rw [hs] at this
        exact List.length_eq_zero.mp this.symm
      subst hl
      simp [insertDesc, firstMax]
    | cons y t =>
      rw [hs] at ih
      simp only [List.head?] at ih
      rw [← ih]
      simp only [insertDesc]
      split
      · simp
      · simp

/-- Filtering commutes with descending insertion on a sorted list. -/
theorem filter_insertDesc (p : IPAddress → Bool) (x : IPAddress) {s : List IPAddress}
    (h : s.Pairwise (fun a b => b.confidence ≤ a.confidence)) :
    (insertDesc x s).filter p = if p x then insertDesc x (s.filter p) else s.filter p := by
  induction s with
  | nil =>
    by_cases hp : p x <;> simp [insertDesc, hp]
  | cons y ys ih =>
    rcases List.pairwise_cons.mp h with ⟨hy, hys⟩
    simp only [insertDesc]
    by_cases hgt : y.confidence > x.confidence
    · rw [if_pos hgt]
      by_cases hpy : p y
      · rw [List.filter_cons_of_pos hpy, ih hys]
        by_cases hpx : p x
        · rw [if_pos hpx, if_pos hpx, List.filter_cons_of_pos hpy]
          simp only [insertDesc]
          rw [if_pos hgt]
        · rw [if_neg hpx, if_neg hpx, List.filter_cons_of_pos hpy]
      · rw [List.filter_cons_of_neg hpy, ih hys, List.filter_cons_of_neg hpy]
    · rw [if_neg hgt]
      by_cases hpx : p x
      · rw [if_pos hpx, List.filter_cons_of_pos hpx]
        by_cases hpy : p y
        · rw [List.filter_cons_of_pos hpy]
          simp only [insertDesc]
          rw [if_neg hgt]
        · rw [List.filter_cons_of_neg hpy]
          rw [insertDesc_eq_cons]
          intro z hz
          have hzys : z ∈ ys := List.mem_of_mem_filter hz
          have h1 := hy z hzys
          omega
      · rw [if_neg hpx, List.filter_cons_of_neg hpx]

/-- Filtering commutes with the stable descending sort. -/
theorem filter_sortConfDesc (p : IPAddress → Bool) (l : List IPAddress) :
    (sortConfDesc l).filter p = sortConfDesc (l.filter p) := by
  induction l with
  | nil => rfl
  | cons x l ih =>
    simp only [sortConfDesc]
    rw [filter_insertDesc p x (sorted_sortConfDesc l)]
    by_cases hpx : p x
    · rw [if_pos hpx, ih, List.filter_cons_of_pos hpx]
      rfl
    · rw [if_neg hpx, ih, List.filter_cons_of_neg hpx]

/-- A head obtained from head? is a member. -/
theorem mem_of_head? {l : List IPAddress} {p : IPAddress} (h : l.head? = some p) : p ∈ l := by
  cases l <;> simp_all

/-- Whatever determinePrimaryIP returns is one of its input candidates. -/
theorem determinePrimaryIP_mem {l : List IPAddress} {p : IPAddress}
    (h : determinePrimaryIP l = some p) : p ∈ l := by
  unfold determinePrimaryIP at h
  split at h
  · exact absurd h (by simp)
  · split at h
    · exact mem_of_head? h
    · dsimp only at h
      split at h
      · have hp := mem_of_head? h
        have := List.mem_of_mem_filter hp
        exact (mem_sortConfDesc p l).mp this
      · exact (mem_sortConfDesc p l).mp (mem_of_head? h)

end IPDetectionService

/-- Rendering of four octets as a dotted-quad literal, used to quantify over
IPv4 addresses in canonical textual form. -/
def quadStr (a b c d : Nat) : Str :=
  renderDec a ++ '.' :: (renderDec b ++ '.' :: (renderDec c ++ '.' :: renderDec d))

/-- Claim C1: for every candidate list with at least two elements,
determinePrimaryIP behaves as the spec's selection rule: it sorts descending
by confidence (stable, so ties break by extraction order), returns the
highest-confidence public candidate when one exists, and otherwise the
highest-confidence candidate overall; in particular a public candidate with
confidence 40 beats a private one with confidence 95 (see the witness). -/
theorem c1_determinePrimaryIP_matches_spec (l : List IPAddress) (h : 2 ≤ l.length) :
    IPDetectionService.determinePrimaryIP l = specSelectPrimary l := by
  have h0 : ¬ l.length = 0 := by omega
  have h1 : ¬ l.length = 1 := by omega
  unfold IPDetectionService.determinePrimaryIP specSelectPrimary
  rw [if_neg h0, if_neg h1]
  dsimp only
  rw [IPDetectionService.filter_sortConfDesc]
  have hne : l.isEmpty = false := by
    cases l
    · simp at h0
    · rfl
  rw [hne]
  simp only [Bool.false_eq_true, if_false]
  by_cases hf : l.filter (fun i => decide (i.type = IPType.public)) = []
  · rw [hf]
    simp [IPDetectionService.sortConfDesc, IPDetectionService.sortConfDesc_head?]
  · have hlen : (IPDetectionService.sortConfDesc
        (l.filter (fun i => decide (i.type = IPType.public)))).length > 0 := by
      rw [IPDetectionService.length_sortConfDesc]
      cases hc : l.filter (fun i => decide (i.type = IPType.public)) with
      | nil => exact absurd hc hf
      | cons a t => simp [hc]
    rw [if_pos hlen, IPDetectionService.sortConfDesc_head?]
    have hemp : (l.filter (fun i => decide (i.type = IPType.public))).isEmpty = false := by
      cases hc : l.filter (fun i => decide (i.type = IPType.public)) with
      | nil => exact absurd hc hf
      | cons a t => rfl
    rw [hemp]
    simp only [Bool.false_eq_true, if_false]

/-- Witness for C1 at the spec's own example: one public candidate with
confidence 40 and one private candidate with confidence 95; the primary is
the public one. -/
theorem c1_witness :
    2 ≤ ([⟨lit ("203.0.113.5"), 4, IPType.public, IPSource.xForwardedFor, 40⟩,
          ⟨lit ("10.0.0.1"), 4, IPType.priv, IPSource.socket, 95⟩] : List IPAddress).length ∧
    IPDetectionService.determinePrimaryIP
        [⟨lit ("203.0.113.5"), 4, IPType.public, IPSource.xForwardedFor, 40⟩,
         ⟨lit ("10.0.0.1"), 4, IPType.priv, IPSource.socket, 95⟩] =
      specSelectPrimary
        [⟨lit ("203.0.113.5"), 4, IPType.public, IPSource.xForwardedFor, 40⟩,
         ⟨lit ("10.0.0.1"), 4, IPType.priv, IPSource.socket, 95⟩] ∧
    IPDetectionService.determinePrimaryIP
        [⟨lit ("203.0.113.5"), 4, IPType.public, IPSource.xForwardedFor, 40⟩,
         ⟨lit ("10.0.0.1"), 4, IPType.priv, IPSource.socket, 95⟩] =
      some ⟨lit ("203.0.113.5"), 4, IPType.public, IPSource.xForwardedFor, 40⟩ :=
  ⟨by decide,
   c1_determinePrimaryIP_matches_spec
     [⟨lit ("203.0.113.5"), 4, IPType.public, IPSource.xForwardedFor, 40⟩,
      ⟨lit ("10.0.0.1"), 4, IPType.priv, IPSource.socket, 95⟩] (by decide),
   by decide⟩

/-- Claim C4: with an empty candidate list primary selection yields nothing,
and analyzeConnection fails with the No-valid-IP error rather than
substituting any default address. -/
theorem c4_no_candidates_error :
    IPDetectionService.determinePrimaryIP [] = none ∧
    ∀ req : Request, IPDetectionService.extractAllIPs req = [] →
      IPDetectionService.analyzeConnection req = .error ("No valid IP address detected") := by
  refine ⟨rfl, ?_⟩
  intro req hreq
  unfold IPDetectionService.analyzeConnection
  simp only [hreq]
  rfl

/-- Witness for C4: the request with no headers and no socket address
extracts no candidates and analyzeConnection rejects it. -/
theorem c4_witness :
    IPDetectionService.extractAllIPs {} = [] ∧
    IPDetectionService.analyzeConnection {} = .error ("No valid IP address detected") :=
  ⟨rfl, c4_no_candidates_error.2 {} rfl⟩

/-- Claim C10: analyzeConnection serializes allDetectedIPs exactly as
extracted (determinePrimaryIP sorts a spread copy, leaving the extraction
order unchanged), and the returned primary is an element of that list. -/
theorem c10_frame_preservation (req : Request) (a : IPDetectionService.IPAnalysis)
    (h : IPDetectionService.analyzeConnection req = .ok a) :
    a.allDetectedIPs = IPDetectionService.extractAllIPs req ∧
      a.primaryIP ∈ a.allDetectedIPs := by
  unfold IPDetectionService.analyzeConnection at h
  dsimp only at h
  cases hd : IPDetectionService.determinePrimaryIP (IPDetectionService.extractAllIPs req) with
  | none =>
    rw [hd] at h
    exact absurd h (by simp)
  | some q =>
    rw [hd] at h
    injection h with h2
    subst h2
    exact ⟨rfl, IPDetectionService.determinePrimaryIP_mem hd⟩

/-- Witness for C10 at a request carrying one CF-Connecting-IP header. -/
theorem c10_witness :
    (IPDetectionService.IPAnalysis.mk
        ⟨lit ("198.51.100.77"), 4, IPType.public, IPSource.cfConnectingIP, 95⟩
        [⟨lit ("198.51.100.77"), 4, IPType.public, IPSource.cfConnectingIP, 95⟩]).allDetectedIPs =
      IPDetectionService.extractAllIPs { cfConnectingIP := some (lit ("198.51.100.77")) } ∧
    (IPDetectionService.IPAnalysis.mk
        ⟨lit ("198.51.100.77"), 4, IPType.public, IPSource.cfConnectingIP, 95⟩
        [⟨lit ("198.51.100.77"), 4, IPType.public, IPSource.cfConnectingIP, 95⟩]).primaryIP ∈
      (IPDetectionService.IPAnalysis.mk
        ⟨lit ("198.51.100.77"), 4, IPType.public, IPSource.cfConnectingIP, 95⟩
        [⟨lit ("198.51.100.77"), 4, IPType.public, IPSource.cfConnectingIP, 95⟩]).allDetectedIPs :=
  c10_frame_preservation { cfConnectingIP := some (lit ("198.51.100.77")) }
    (IPDetectionService.IPAnalysis.mk
      ⟨lit ("198.51.100.77"), 4, IPType.public, IPSource.cfConnectingIP, 95⟩
      [⟨lit ("198.51.100.77"), 4, IPType.public, IPSource.cfConnectingIP, 95⟩])
    (by decide)

/-- Claim C2 (code bug): classifyIPType tests ip.isPrivate before
ip.isLoopback, and node-ip 2.0.1's isPrivate subsumes loopback addresses, so
127.0.0.1 and ::1 are classified private and the loopback branch of
classifyIPType is unreachable; the sibling classifier classifyIP, which tests
loopback first, classifies the same literals as loopback, as the spec
demands. -/
theorem c2_loopback_classified_private_bug :
    IPDetectionService.classifyIPType (lit ("127.0.0.1")) = IPType.priv ∧
    IPDetectionService.classifyIPType (lit ("::1")) = IPType.priv ∧
    IPDetectionService.classifyIPType (lit ("127.0.0.1")) ≠ IPType.loopback ∧
    IPClassificationService.classifyIP (lit ("127.0.0.1")) = .ok IPType.loopback ∧
    IPClassificationService.classifyIP (lit ("::1")) = .ok IPType.loopback := by
  decide

/-- Counterexample for claim C3: the confidences extracted from the header
X-Forwarded-For 203.0.113.5, 10.0.0.1, 198.51.100.9 are not 90, 30, 20. -/
theorem c3_counterexample :
    (IPDetectionService.extractForwardedForIPs
        { xForwardedFor := some (lit ("203.0.113.5, 10.0.0.1, 198.51.100.9")) }).map
        IPAddress.confidence ≠ [90, 30, 20] := by
  decide

/-- Claim C3 as amended: the header produces exactly three candidates in
order with confidences 90, 40, 30 (the source formula gives max(50 - 10 i,
10) = 40 and 30 for indices one and two) and classifications
public, private, public. -/
theorem c3_forwardedFor_amended :
    IPDetectionService.extractForwardedForIPs
        { xForwardedFor := some (lit ("203.0.113.5, 10.0.0.1, 198.51.100.9")) } =
      [⟨lit ("203.0.113.5"), 4, IPType.public, IPSource.xForwardedFor, 90⟩,
       ⟨lit ("10.0.0.1"), 4, IPType.priv, IPSource.xForwardedFor, 40⟩,
       ⟨lit ("198.51.100.9"), 4, IPType.public, IPSource.xForwardedFor, 30⟩] := by
  decide

/-- Claim C5 (code bug): cidrToSubnetMask accepts prefix 0 but, because the
JavaScript left shift takes its count modulo 32, returns the all-ones mask,
whose round trip gives 32 instead of 0; for every prefix from 1 to 32 the
round trip is the identity. -/
theorem c5_cidr_roundtrip_bug :
    IPClassificationService.cidrToSubnetMask 0 = .ok (lit ("255.255.255.255")) ∧
    IPClassificationService.subnetMaskToCidr (lit ("255.255.255.255")) = .ok 32 ∧
    ∀ p : Nat, 1 ≤ p → p ≤ 32 →
      (IPClassificationService.cidrToSubnetMask (p : Int) >>= fun m =>
        IPClassificationService.subnetMaskToCidr m) = .ok p := by
  refine ⟨by decide, by decide, ?_⟩
  intro p h1 h2
  interval_cases p <;> decide

/-- Witness for C5 at prefix 24. -/
theorem c5_witness :
    (1 ≤ 24 ∧ 24 ≤ 32) ∧
    (IPClassificationService.cidrToSubnetMask ((24 : Nat) : Int) >>= fun m =>
      IPClassificationService.subnetMaskToCidr m) = .ok 24 :=
  ⟨by decide, c5_cidr_roundtrip_bug.2.2 24 (by decide) (by decide)⟩

/-- Claim C6 (code bug): for 192.168.1.100 with mask 255.255.255.0 the
network and broadcast addresses are as claimed, but the library's numHosts is
already 254 (network and broadcast excluded), so the returned totalHosts is
254 rather than 2^8 = 256 and usableHosts is 252 rather than 254 (the code
subtracts network and broadcast a second time). -/
theorem c6_calculateSubnet_counts_bug :
    IPClassificationService.calculateSubnet (lit ("192.168.1.100")) (lit ("255.255.255.0")) =
      .ok ⟨lit ("192.168.1.0"), lit ("192.168.1.255"), lit ("192.168.1.1"),
           lit ("192.168.1.254"), 254, 252, lit ("192.168.1.0/24")⟩ := by
  decide

/-- Claim C7: the Forwarded header with a bracketed, quoted IPv6 address and
port yields exactly one candidate, the address 2001:db8::1 with the port
stripped, origin forwarded (the spec's forwarded-rfc7239), confidence 75 and
classification reserved. -/
theorem c7_forwarded_rfc7239_ipv6 :
    IPDetectionService.extractForwardedRFC
        { forwarded := some (lit ("for=\"[2001:db8::1]:8080\"")) } =
      [⟨lit ("2001:db8::1"), 6, IPType.reserved, IPSource.forwarded, 75⟩] := by
  decide

/-- Counterexample for claim C8: 224.0.0.1 is classified reserved, not
multicast. -/
theorem c8_counterexample :
    IPDetectionService.classifyIPType (lit ("224.0.0.1")) = IPType.reserved ∧
    IPDetectionService.classifyIPType (lit ("224.0.0.1")) ≠ IPType.multicast := by
  decide

/-- Counterexample for claim C9: the non-contiguous mask 255.0.255.0 is a
syntactically valid IP literal, so subnetMaskToCidr accepts it and silently
returns 8 instead of rejecting it. -/
theorem c9_counterexample :
    IPClassificationService.subnetMaskToCidr (lit ("255.0.255.0")) = .ok 8 := by
  decide

/-- Claim C9 as amended: non-IP strings are rejected by subnetMaskToCidr and
calculateSubnet with descriptive messages, and out-of-range prefixes are
rejected by cidrToSubnetMask; but a non-contiguous mask that is a valid IP
literal is not rejected (see the counterexample), being silently converted
to its count of leading one bits. -/
theorem c9_invalid_input_amended :
    (∀ s : Str, isIPnet s = 0 →
      IPClassificationService.subnetMaskToCidr s = .error ("Invalid subnet mask")) ∧
    (∀ c : Int, c < 0 ∨ 32 < c →
      IPClassificationService.cidrToSubnetMask c = .error ("CIDR must be between 0 and 32")) ∧
    (∀ s t : Str, isIPnet s = 0 ∨ isIPnet t = 0 →
      IPClassificationService.calculateSubnet s t = .error ("Invalid IP address or subnet mask")) := by
  refine ⟨?_, ?_, ?_⟩
  · intro s hs
    unfold IPClassificationService.subnetMaskToCidr
    rw [if_pos hs]
  · intro c hc
    unfold IPClassificationService.cidrToSubnetMask
    rw [if_pos (show c < 0 ∨ c > 32 by omega)]
  · intro s t hst
    unfold IPClassificationService.calculateSubnet
    rw [if_pos hst]

/-- Witness for C9 at concrete invalid inputs. -/
theorem c9_witness :
    isIPnet (lit ("hello")) = 0 ∧
    IPClassificationService.subnetMaskToCidr (lit ("hello")) = .error ("Invalid subnet mask") ∧
    IPClassificationService.cidrToSubnetMask (-1) = .error ("CIDR must be between 0 and 32") ∧
    IPClassificationService.calculateSubnet (lit ("foo")) (lit ("255.255.255.0")) =
      .error ("Invalid IP address or subnet mask") :=
  ⟨by decide, c9_invalid_input_amended.1 (lit ("hello")) (by decide),
   c9_invalid_input_amended.2.1 (-1) (by decide),
   c9_invalid_input_amended.2.2 (lit ("foo")) (lit ("255.255.255.0")) (by decide)⟩

/-!
Support lemmas for the universal claim about the 224.0.0.0/4 range:
splitting a dotted rendering recovers its octet strings, rendering and
parsing octets are inverse below 256, and the node-ip masking and
long-conversion pipeline evaluates symbolically on dotted quads.
-/

/-- Splitting a string free of the separator yields that single piece. -/
theorem splitOnChar_not_mem {c : Char} {xs : Str} (h : c ∉ xs) : splitOnChar c xs = [xs] := by
  induction xs with
  | nil => rfl
  | cons x t ih =>
    have hx : ¬ x = c := fun he => h (he ▸ List.mem_cons_self x t)
    have ht : c ∉ t := fun hm => h (List.mem_cons_of_mem x hm)
    simp only [splitOnChar, ih ht]
    rw [if_neg hx]

/-- splitOnChar never returns the empty list. -/
theorem splitOnChar_ne_nil (c : Char) (s : Str) : splitOnChar c s ≠ [] := by
  cases s with
  | nil => simp [splitOnChar]
  | cons x t =>
    simp only [splitOnChar]
    cases hgs : splitOnChar c t with
    | nil => simp
    | cons g gs =>
      dsimp only
      split <;> simp

/-- Splitting at an explicit separator occurrence after a separator-free
piece peels off that piece. -/
theorem splitOnChar_append_cons {c : Char} {xs : Str} (ys : Str) (h : c ∉ xs) :
    splitOnChar c (xs ++ c :: ys) = xs :: splitOnChar c ys := by
  induction xs with
  | nil =>
    simp only [List.nil_append, splitOnChar]
    cases hs : splitOnChar c ys with
    | nil => exact absurd hs (splitOnChar_ne_nil c ys)
    | cons g gs => simp
  | cons x t ih =>
    have hx : ¬ x = c := fun he => h (he ▸ List.mem_cons_self x t)
    have ht : c ∉ t := fun hm => h (List.mem_cons_of_mem x hm)
    simp only [List.cons_append, splitOnChar, List.append_eq]
    rw [ih ht]
    dsimp only
    rw [if_neg hx]

set_option maxRecDepth 8000 in
set_option maxHeartbeats 1000000 in
/-- Facts about octet renderings, all checked by evaluation over the 256
octet values: the rendering contains no dot, parses back to the octet (both
through parseInt and toBuffer's byte conversion), and is one to three
digits. -/
theorem renderDec_octet_facts : ∀ n, n < 256 →
    ('.' ∉ renderDec n ∧ segByte (renderDec n) = n ∧
      jsParseIntDec (renderDec n) = some (n : Int) ∧
      1 ≤ (renderDec n).length ∧ (renderDec n).length ≤ 3 ∧
      (renderDec n).all Char.isDigit = true) := by
  decide

set_option maxRecDepth 8000 in
set_option maxHeartbeats 1000000 in
/-- Octets between 224 and 239 render with a leading two. -/
theorem renderDec_224_head : ∀ n, n < 240 → 224 ≤ n → (renderDec n).head? = some '2' := by
  decide

set_option maxRecDepth 8000 in
set_option maxHeartbeats 1000000 in
/-- Bitwise and with 255 is the identity on octets. -/
theorem land_255 : ∀ n, n < 256 → Nat.land n 255 = n := by decide

set_option maxRecDepth 8000 in
set_option maxHeartbeats 1000000 in
/-- Bitwise and with 0 is zero on octets. -/
theorem land_0 : ∀ n, n < 256 → Nat.land n 0 = 0 := by decide

set_option maxRecDepth 8000 in
set_option maxHeartbeats 1000000 in
/-- Bitwise and with 240 sends the 224-239 block to 224. -/
theorem land_240 : ∀ n, n < 256 → 224 ≤ n → n ≤ 239 → Nat.land n 240 = 224 := by decide

set_option maxRecDepth 8000 in
set_option maxHeartbeats 2000000 in
/-- Bitwise and keeps octets below 256. -/
theorem land_lt_256 : ∀ n, n < 256 → ∀ m, m < 256 → Nat.land n m < 256 := by decide

/-- The four octet strings of a dotted quad, recovered by splitting. -/
theorem splitOnChar_quadStr (a b c d : Nat) (ha : a < 256) (hb : b < 256)
    (hc : c < 256) (hd : d < 256) :
    splitOnChar '.' (quadStr a b c d) = [renderDec a, renderDec b, renderDec c, renderDec d] := by
  unfold quadStr
  rw [splitOnChar_append_cons _ (renderDec_octet_facts a ha).1,
    splitOnChar_append_cons _ (renderDec_octet_facts b hb).1,
    splitOnChar_append_cons _ (renderDec_octet_facts c hc).1,
    splitOnChar_not_mem (renderDec_octet_facts d hd).1]

/-- A dotted quad contains its separator somewhere after the first octet. -/
theorem contains_append_cons_self (xs ys : Str) (c : Char) :
    (xs ++ c :: ys).contains c = true := by
  induction xs with
  | nil => simp
  | cons x t ih => simp [ih]

/-- ip.toString of a four-byte buffer is the dotted quad of its bytes. -/
theorem bufToStr_quad (x0 x1 x2 x3 : Nat) : bufToStr [x0, x1, x2, x3] = quadStr x0 x1 x2 x3 := rfl

/-- A rendered dotted quad passes node-ip's loose IPv4 format check. -/
theorem isV4Format_quad (a b c d : Nat) (ha : a < 256) (hb : b < 256)
    (hc : c < 256) (hd : d < 256) : isV4Format (quadStr a b c d) = true := by
  unfold isV4Format
  rw [splitOnChar_quadStr a b c d ha hb hc hd]
  simp [(renderDec_octet_facts a ha).2.2.2.1, (renderDec_octet_facts a ha).2.2.2.2.1,
    (renderDec_octet_facts a ha).2.2.2.2.2,
    (renderDec_octet_facts b hb).2.2.2.1, (renderDec_octet_facts b hb).2.2.2.2.1,
    (renderDec_octet_facts b hb).2.2.2.2.2,
    (renderDec_octet_facts c hc).2.2.2.1, (renderDec_octet_facts c hc).2.2.2.2.1,
    (renderDec_octet_facts c hc).2.2.2.2.2,
    (renderDec_octet_facts d hd).2.2.2.1, (renderDec_octet_facts d hd).2.2.2.2.1,
    (renderDec_octet_facts d hd).2.2.2.2.2]

/-- ip.toBuffer of a rendered dotted quad recovers the four octets. -/
theorem ipToBuffer_quad (a b c d : Nat) (ha : a < 256) (hb : b < 256)
    (hc : c < 256) (hd : d < 256) : ipToBuffer (quadStr a b c d) = some [a, b, c, d] := by
  unfold ipToBuffer
  rw [isV4Format_quad a b c d ha hb hc hd]
  simp [splitOnChar_quadStr a b c d ha hb hc hd,
    (renderDec_octet_facts a ha).2.1, (renderDec_octet_facts b hb).2.1,
    (renderDec_octet_facts c hc).2.1, (renderDec_octet_facts d hd).2.1]

/-- ToInt32 is the identity below 2^31. -/
theorem jsToInt32_of_small {x : Int} (h0 : 0 ≤ x) (h1 : x < 2147483648) : jsToInt32 x = x := by
  unfold jsToInt32
  dsimp only
  rw [Int.emod_eq_of_lt h0 (by omega), if_pos h1]

/-- ToUint32 after a ToInt32 wrap and an addition below 2^32 recovers the
exact sum. -/
theorem jsToUint32_jsToInt32_add (x y : Int) (hx0 : 0 ≤ x) (hx1 : x < 4294967296)
    (hy0 : 0 ≤ y) (hxy : x + y < 4294967296) :
    jsToUint32 (jsToInt32 x + y) = (x + y).toNat := by
  unfold jsToInt32 jsToUint32
  dsimp only
  split <;> omega

/-- ip.toLong of a rendered dotted quad is the big-endian octet value (the
intermediate int32 wrap-arounds cancel under the final ToUint32). -/
theorem jsToLong_quad (a b c d : Nat) (ha : a < 256) (hb : b < 256)
    (hc : c < 256) (hd : d < 256) :
    jsToLong (quadStr a b c d) = ((a * 256 + b) * 256 + c) * 256 + d := by
  unfold jsToLong
  rw [splitOnChar_quadStr a b c d ha hb hc hd]
  simp only [List.foldl_cons, List.foldl_nil,
    (renderDec_octet_facts a ha).2.2.1, (renderDec_octet_facts b hb).2.2.1,
    (renderDec_octet_facts c hc).2.2.1, (renderDec_octet_facts d hd).2.2.1]
  rw [show jsToInt32 (jsToInt32 0 * 256) = 0 from by decide, zero_add]
  rw [jsToInt32_of_small (x := (a : Int)) (by omega) (by omega)]
  rw [jsToInt32_of_small (x := (a : Int) * 256) (by omega) (by omega)]
  rw [jsToInt32_of_small (x := (a : Int) * 256 + (b : Int)) (by omega) (by omega)]
  rw [jsToInt32_of_small (x := ((a : Int) * 256 + (b : Int)) * 256) (by omega) (by omega)]
  rw [jsToInt32_of_small (x := ((a : Int) * 256 + (b : Int)) * 256 + (c : Int)) (by omega) (by omega)]
  rw [jsToUint32_jsToInt32_add ((((a : Int) * 256 + (b : Int)) * 256 + (c : Int)) * 256) (d : Int)
    (by omega) (by omega) (by omega) (by omega)]
  omega

/-- ip.mask of two rendered dotted quads is the dotted quad of the bytewise
ands. -/
theorem ipMask_quad_quad (a b c d m0 m1 m2 m3 : Nat)
    (ha : a < 256) (hb : b < 256) (hc : c < 256) (hd : d < 256)
    (hm0 : m0 < 256) (hm1 : m1 < 256) (hm2 : m2 < 256) (hm3 : m3 < 256) :
    ipMask (quadStr a b c d) (quadStr m0 m1 m2 m3) =
      some (quadStr (Nat.land a m0) (Nat.land b m1) (Nat.land c m2) (Nat.land d m3)) := by
  unfold ipMask
  rw [ipToBuffer_quad a b c d ha hb hc hd, ipToBuffer_quad m0 m1 m2 m3 hm0 hm1 hm2 hm3]
  simp [List.zipWith, bufToStr_quad]

/-- Evaluation of a caught cidrSubnet containment test on a rendered dotted
quad, given the mask string and network long of the range. -/
theorem cidrContainsCaught_quad (range : Str) (m0 m1 m2 m3 netLong : Nat) (a b c d : Nat)
    (ha : a < 256) (hb : b < 256) (hc : c < 256) (hd : d < 256)
    (hm0 : m0 < 256) (hm1 : m1 < 256) (hm2 : m2 < 256) (hm3 : m3 < 256)
    (hr : (ipCidrSubnet range).map (fun sub => (sub.maskStr, sub.networkLong)) =
      some (quadStr m0 m1 m2 m3, netLong)) :
    cidrContainsCaught range (quadStr a b c d) =
      decide (((Nat.land a m0 * 256 + Nat.land b m1) * 256 + Nat.land c m2) * 256 +
        Nat.land d m3 = netLong) := by
  cases hs : ipCidrSubnet range with
  | none => rw [hs] at hr; simp at hr
  | some sub =>
    rw [hs] at hr
    simp only [Option.map_some'] at hr
    rw [Option.some_inj, Prod.mk.injEq] at hr
    unfold cidrContainsCaught
    rw [hs]
    dsimp only
    unfold subnetContains
    rw [hr.1]
    rw [ipMask_quad_quad a b c d m0 m1 m2 m3 ha hb hc hd hm0 hm1 hm2 hm3]
    simp only [Option.map_some', Option.getD_some]
    rw [jsToLong_quad _ _ _ _ (land_lt_256 a ha m0 hm0) (land_lt_256 b hb m1 hm1)
      (land_lt_256 c hc m2 hm2) (land_lt_256 d hd m3 hm3)]
    rw [hr.2]

/-- Mask string and network long of the 0.0.0.0/8 reserved range. -/
theorem range08_proj :
    (ipCidrSubnet (lit ("0.0.0.0/8"))).map (fun sub => (sub.maskStr, sub.networkLong)) =
      some (quadStr 255 0 0 0, 0) := by decide

/-- Mask string and network long of the 169.254.0.0/16 reserved range. -/
theorem range169_proj :
    (ipCidrSubnet (lit ("169.254.0.0/16"))).map (fun sub => (sub.maskStr, sub.networkLong)) =
      some (quadStr 255 255 0 0, 2851995648) := by decide

/-- Mask string and network long of the 224.0.0.0/4 reserved range. -/
theorem range224_proj :
    (ipCidrSubnet (lit ("224.0.0.0/4"))).map (fun sub => (sub.maskStr, sub.networkLong)) =
      some (quadStr 240 0 0 0, 3758096384) := by decide

/-- isLoopback is false on any dotted string starting with the character
two: the long-integer branch is skipped because a dot is present, and every
loopback pattern fails on the first character. -/
theorem ipIsLoopback_head2 (t rest : Str) :
    ipIsLoopback ('2' :: (t ++ '.' :: rest)) = false := by
  unfold ipIsLoopback
  have hcont : (('2' :: (t ++ '.' :: rest)).contains '.') = true := by
    simp [contains_append_cons_self]
  rw [if_neg (by simp [hcont])]
  rfl

/-- isPrivate is false on any dotted string starting with the character two:
loopback fails as above and every private pattern fails on the first
character. -/
theorem ipIsPrivate_head2 (t rest : Str) :
    ipIsPrivate ('2' :: (t ++ '.' :: rest)) = false := by
  unfold ipIsPrivate
  rw [ipIsLoopback_head2 t rest]
  rfl

/-- Claim C8 as amended: every IPv4 address in 224.0.0.0/4 is classified
reserved, because the reserved range list of isReservedIP includes
224.0.0.0/4 and the reserved step precedes the multicast step in
classifyIPType, which therefore never returns multicast for an IPv4
literal. -/
theorem c8_multicast_range_reserved_amended (a b c d : Nat)
    (ha1 : 224 ≤ a) (ha2 : a ≤ 239) (hb : b < 256) (hc : c < 256) (hd : d < 256) :
    IPDetectionService.classifyIPType (quadStr a b c d) = IPType.reserved := by
  have ha : a < 256 := by omega
  obtain ⟨t, hre⟩ : ∃ t, renderDec a = '2' :: t := by
    have hh := renderDec_224_head a (by omega) ha1
    cases hq : renderDec a with
    | nil => rw [hq] at hh; simp at hh
    | cons h0 t0 =>
      rw [hq] at hh
      simp at hh
      exact ⟨t0, by rw [hh]⟩
  have hq : quadStr a b c d =
      '2' :: (t ++ '.' :: (renderDec b ++ '.' :: (renderDec c ++ '.' :: renderDec d))) := by
    unfold quadStr
    rw [hre]
    rfl
  have hPriv : ipIsPrivate (quadStr a b c d) = false := by
    rw [hq]; exact ipIsPrivate_head2 _ _
  have hLoop : ipIsLoopback (quadStr a b c d) = false := by
    rw [hq]; exact ipIsLoopback_head2 _ _
  have hC1 : cidrContainsCaught (lit ("0.0.0.0/8")) (quadStr a b c d) = false := by
    rw [cidrContainsCaught_quad _ 255 0 0 0 0 a b c d ha hb hc hd
      (by omega) (by omega) (by omega) (by omega) range08_proj]
    rw [land_255 a ha, land_0 b hb, land_0 c hc, land_0 d hd]
    simp only [decide_eq_false_iff_not]
    omega
  have hC2 : cidrContainsCaught (lit ("169.254.0.0/16")) (quadStr a b c d) = false := by
    rw [cidrContainsCaught_quad _ 255 255 0 0 2851995648 a b c d ha hb hc hd
      (by omega) (by omega) (by omega) (by omega) range169_proj]
    rw [land_255 a ha, land_255 b hb, land_0 c hc, land_0 d hd]
    simp only [decide_eq_false_iff_not]
    omega
  have hC3 : cidrContainsCaught (lit ("224.0.0.0/4")) (quadStr a b c d) = true := by
    rw [cidrContainsCaught_quad _ 240 0 0 0 3758096384 a b c d ha hb hc hd
      (by omega) (by omega) (by omega) (by omega) range224_proj]
    rw [land_240 a ha ha1 ha2, land_0 b hb, land_0 c hc, land_0 d hd]
    decide
  have hRes : IPDetectionService.isReservedIP (quadStr a b c d) = true := by
    unfold IPDetectionService.isReservedIP IPDetectionService.reservedRanges
    simp only [List.any_cons, List.any_nil]
    rw [hC1, hC2, hC3]
    rfl
  unfold IPDetectionService.classifyIPType
  rw [hPriv, hLoop, hRes]
  rfl

/-- Witness for the amended C8 at the multicast address 225.10.20.30. -/
theorem c8_witness :
    (224 ≤ 225 ∧ 225 ≤ 239 ∧ 10 < 256 ∧ 20 < 256 ∧ 30 < 256) ∧
    IPDetectionService.classifyIPType (quadStr 225 10 20 30) = IPType.reserved :=
  ⟨by decide, c8_multicast_range_reserved_amended 225 10 20 30
    (by decide) (by decide) (by decide) (by decide) (by decide)⟩
